import Mathlib

/-!
Verification of the mdblog content and theme subsystem.

Shallow embedding of the post parser (src/post.rs) and of the theme
manager (src/theme/mod.rs). Rust strings are modelled as lists of
characters, file contents as lists of bytes, the file system as explicit
lists of directory paths and file entries. The external collaborators
(serde_yaml, the markdown transform, the Tera template engine) are
modelled as function parameters, as the spec treats them as opaque.
-/

namespace Mdblog

/-- Rust strings are modelled as lists of characters. -/
abbrev Str := List Char

/-- Convert a Lean string literal to the model representation. -/
def toStr (s : String) : Str := s.data

/-- Unicode White_Space, the predicate behind Rust char::is_whitespace,
which str::trim and str::split_whitespace use. -/
def isRustWhitespace (c : Char) : Bool :=
  let n := c.toNat
  (decide (9 ≤ n) && decide (n ≤ 13)) || n == 32 || n == 0x85 || n == 0xA0 ||
  n == 0x1680 || (decide (0x2000 ≤ n) && decide (n ≤ 0x200A)) ||
  n == 0x2028 || n == 0x2029 || n == 0x202F || n == 0x205F || n == 0x3000

/-- Split at the first occurrence of a (non-empty) separator: the model of
Rust str::splitn with limit two, and of str::find when only presence
matters. Returns none when the separator does not occur, otherwise the
parts strictly before and strictly after its first occurrence. -/
def splitFirst (sep : Str) : Str → Option (Str × Str)
  | [] => none
  | c :: rest =>
    if sep.isPrefixOf (c :: rest) then some ([], (c :: rest).drop sep.length)
    else
      match splitFirst sep rest with
      | none => none
      | some (a, b) => some (c :: a, b)

/-- Rust str::trim. -/
def trim (s : Str) : Str :=
  ((s.dropWhile isRustWhitespace).reverse.dropWhile isRustWhitespace).reverse

/-- Accumulator form of split_whitespace; the accumulator holds the current
word reversed. -/
def splitWhitespaceAux : Str → Str → List Str
  | [], acc => if acc.isEmpty then [] else [acc.reverse]
  | c :: s, acc =>
    if isRustWhitespace c then
      if acc.isEmpty then splitWhitespaceAux s []
      else acc.reverse :: splitWhitespaceAux s []
    else splitWhitespaceAux s (c :: acc)

/-- Rust str::split_whitespace: the maximal runs of non-whitespace
characters, in order. -/
def splitWhitespace (s : Str) : List Str := splitWhitespaceAux s []

/-- Rust str::replace with the one-character pattern used by Post::new:
every underscore becomes a space. -/
def replaceUnderscore (s : Str) : Str :=
  s.map (fun c => if c = '_' then ' ' else c)

/-- The blog post YAML headers (src/post.rs, struct PostHeaders). The
created timestamp is opaque to every claim and is modelled as its text. -/
structure PostHeaders where
  created : Str
  hidden : Bool
  tags : List Str
  description : Str
  title : Str
  deriving DecidableEq

/-- The error cases post parsing can raise (the variants of src/error.rs
that src/post.rs constructs). PostOnlyOnePart is the spec's
MissingHeadBody, PostNoHead is EmptyHead, PostNoBody is EmptyBody,
PostHeadPaser is HeaderParse (the name keeps the source spelling). Panic
models the expect on a filename without a stem in Post::new. -/
inductive PostError where
  | Io
  | PostOnlyOnePart
  | PostNoHead
  | PostNoBody
  | PostHeadPaser
  | Panic
  deriving DecidableEq

/-- Two line feeds, the default head/body separator in Post::split_file. -/
def sepLF2 : Str := ['\n', '\n']

/-- Carriage return plus line feed: the separator Post::split_file switches
to when the raw content contains a CRLF anywhere. -/
def sepCRLF : Str := ['\r', '\n']

/-- Post::split_file line-ending detection: content.find of CRLF hit. -/
def containsCRLF (content : Str) : Bool := (splitFirst sepCRLF content).isSome

/-- The separator Post::split_file actually splits on. -/
def detectSep (content : Str) : Str :=
  if containsCRLF content then sepCRLF else sepLF2

/-- The first element of body.split on two line feeds (split, take one,
next, unwrap_or the empty string): the part before the first double line
feed, or the whole body when none occurs. -/
def firstChunkLF2 (body : Str) : Str :=
  match splitFirst sepLF2 body with
  | none => body
  | some (a, _) => a

/-- The description auto-fill step inside Post::split_file: when the
parsed description is empty, push the first 100 whitespace tokens of the
first double-line-feed chunk of the body, joined by spaces, then push an
ellipsis when the description so built is non-empty. -/
def autoFillDescription (headers : PostHeaders) (body : Str) : PostHeaders :=
  if headers.description.isEmpty then
    let desc :=
      List.intercalate [' '] ((splitWhitespace (firstChunkLF2 body)).take 100)
    let d := headers.description ++ desc
    if !d.isEmpty then { headers with description := d ++ toStr ("...") }
    else { headers with description := d }
  else headers

/-- Post::split_file (src/post.rs) after the file has been read: content is
the raw text. yaml stands for the external serde_yaml::from_str (none is a
parse failure) and md for the external markdown_to_html transform. -/
def split_file (yaml : Str → Option PostHeaders) (md : Str → Str)
    (content : Str) : Except PostError (PostHeaders × Str) :=
  let line_ending := detectSep content
  match splitFirst line_ending content with
  | none => .error .PostOnlyOnePart
  | some (h0, b0) =>
    let head := trim h0
    let body := trim b0
    if head.isEmpty then .error .PostNoHead
    else if body.isEmpty then .error .PostNoBody
    else
      match yaml head with
      | none => .error .PostHeadPaser
      | some headers => .ok (autoFillDescription headers body, md body)

/-- Split a string at every occurrence of a character. -/
def splitOnChar (sep : Char) : Str → List Str
  | [] => [[]]
  | c :: s =>
    if c = sep then [] :: splitOnChar sep s
    else
      match splitOnChar sep s with
      | [] => [[c]]
      | a :: rest => (c :: a) :: rest

/-- The normal components of a slash-separated path: empty components and
the current-directory component are dropped, as by the Rust components
iterator. -/
def pathComponents (p : Str) : List Str :=
  (splitOnChar '/' p).filter (fun c => !c.isEmpty && c ≠ toStr ("."))

/-- Rust Path::file_name: the last normal component, none when there is
none or it is the parent-directory component. -/
def fileNameOf (p : Str) : Option Str :=
  match (pathComponents p).getLast? with
  | none => none
  | some last => if last = toStr ("..") then none else some last

/-- The stem of a file name: the whole name when it has no dot or only a
leading one, otherwise the part before the final dot. -/
def stemOfName (name : Str) : Str :=
  match splitFirst ['.'] name.reverse with
  | none => name
  | some (_, stemRev) => if stemRev.isEmpty then name else stemRev.reverse

/-- Rust Path::file_stem: the stem of the file name. -/
def fileStemOf (p : Str) : Option Str := (fileNameOf p).map stemOfName

/-- Path::new of the root separator joined with the (relative) post path. -/
def rootJoin (p : Str) : Str :=
  match p with
  | '/' :: _ => p
  | _ => '/' :: p

/-- Rust Path::with_extension applied with the html extension, modelled for
well-formed file paths: the final component loses its extension and gains
a html one. -/
def withExtensionHtml (p : Str) : Str :=
  match splitFirst ['/'] p.reverse with
  | none => stemOfName p ++ toStr (".html")
  | some (nameRev, restRev) =>
      restRev.reverse ++ ['/'] ++ stemOfName nameRev.reverse ++ toStr (".html")

/-- to_string_lossy().replace of backslashes by forward slashes, for the
formatted path. -/
def replaceBackslash (s : Str) : Str :=
  s.map (fun c => if c = '\\' then '/' else c)

/-- The blog post value (src/post.rs, struct Post); content is the body
after the markdown transform. -/
structure Post where
  root : Str
  path : Str
  formatted_path : Str
  title : Str
  url : Str
  headers : PostHeaders
  content : Str
  deriving DecidableEq

/-- Post::new (src/post.rs). The file read is elided: content is the raw
text of the file at root/path. The expect panic on a filename without a
stem is modelled as the Panic error. -/
def Post.new (yaml : Str → Option PostHeaders) (md : Str → Str)
    (root path content : Str) : Except PostError Post :=
  match split_file yaml md content with
  | .error e => .error e
  | .ok (headers, content2) =>
    let titleBase : Option Str :=
      if headers.title.isEmpty then fileStemOf path else some headers.title
    match titleBase with
    | none => .error .Panic
    | some t0 =>
      let title := replaceUnderscore t0
      let url := withExtensionHtml (rootJoin path)
      let formatted_path := replaceBackslash url
      .ok { root := root, path := path, formatted_path := formatted_path,
            title := title, url := url, headers := headers,
            content := content2 }

/-- The description the spec derives when the header one is empty: the
first blank-line-delimited paragraph of the trimmed body, split into
whitespace tokens, at most the first 100 of them, rejoined with single
spaces, with an ellipsis appended exactly when the result is non-empty. -/
def specAutoDescription (body : Str) : Str :=
  let d := List.intercalate [' '] ((splitWhitespace (firstChunkLF2 body)).take 100)
  if d.isEmpty then [] else d ++ toStr ("...")

/-- File contents are modelled as byte lists. -/
abbrev ByteBuf := List Nat

/-- A path of the file-system model, as its components. -/
abbrev FPath := List String

/-- The file-system model: the directories that exist, and the files that
exist together with their contents. Writes prepend, so the first matching
file entry is the current one. -/
structure FS where
  dirs : List FPath
  files : List (FPath × ByteBuf)
  deriving DecidableEq

/-- Look a path up among the file entries; the first match wins. -/
def findFile : List (FPath × ByteBuf) → FPath → Option ByteBuf
  | [], _ => none
  | (q, b) :: rest, p => if p = q then some b else findFile rest p

/-- The contents of the file at a path, if a file is there. -/
def fsFile (fs : FS) (p : FPath) : Option ByteBuf := findFile fs.files p

/-- Membership of a path among the existing directories. -/
def dirExists : List FPath → FPath → Bool
  | [], _ => false
  | d :: rest, p => if p = d then true else dirExists rest p

/-- Path::exists in the model: a directory or a file is at the path. -/
def fsExists (fs : FS) (p : FPath) : Bool :=
  dirExists fs.dirs p || (fsFile fs p).isSome

/-- Theme-side error kinds: Io for any filesystem failure, ThemeNotFound
from Theme::new, Utf8 for from_utf8 failures, TemplateParse for Tera
registration failures. -/
inductive ThemeError where
  | Io
  | ThemeNotFound (name : String)
  | Utf8
  | TemplateParse
  deriving DecidableEq

/-- File::open followed by read_to_end: the contents when the path is a
file, an Io failure otherwise. -/
def fsOpen (fs : FS) (p : FPath) : Except ThemeError ByteBuf :=
  match fsFile fs p with
  | some b => .ok b
  | none => .error .Io

/-- The external collaborators of the theme loader: UTF-8 decoding of a
byte buffer (none models invalid UTF-8), and Tera template-syntax
acceptance of the decoded text. -/
structure Engine where
  decodeUtf8 : ByteBuf → Option String
  parseTemplate : String → Bool

/-- Modelled from the spec: the eight byte buffers of the simple theme
embedded in the binary at compile time (the files under src/theme/simple/
are not among the provided sources), kept abstract as a parameter. -/
structure Embedded where
  favicon : ByteBuf
  logo : ByteBuf
  main_css : ByteBuf
  main_js : ByteBuf
  base : ByteBuf
  index : ByteBuf
  post : ByteBuf
  tag : ByteBuf

/-- The theme value (src/theme/mod.rs, struct Theme). The Tera renderer is
modelled by the list of template names registered in it, in registration
order. -/
structure Theme where
  root : FPath
  name : String
  renderer : List String
  favicon : ByteBuf
  logo : ByteBuf
  main_css : ByteBuf
  main_js : ByteBuf
  base : ByteBuf
  index : ByteBuf
  post : ByteBuf
  tag : ByteBuf
  deriving DecidableEq

/-- Tera::add_raw_template on the model renderer: from_utf8 on the buffer,
then template registration, appending the name on success. -/
def addRawTemplate (e : Engine) (r : List String) (name : String)
    (buf : ByteBuf) : Except ThemeError (List String) :=
  match e.decodeUtf8 buf with
  | none => .error .Utf8
  | some s => if e.parseTemplate s then .ok (r ++ [name]) else .error .TemplateParse

/-- Theme::init_template: register the four template buffers under their
fixed names, in source order; the first failure aborts the whole load. -/
def Theme.init_template (e : Engine) (t : Theme) : Except ThemeError Theme := do
  let r1 ← addRawTemplate e t.renderer ("base.tpl") t.base
  let r2 ← addRawTemplate e r1 ("index.tpl") t.index
  let r3 ← addRawTemplate e r2 ("post.tpl") t.post
  let r4 ← addRawTemplate e r3 ("tag.tpl") t.tag
  return { t with renderer := r4 }

/-- Theme::new (src/theme/mod.rs). emb holds the embedded simple-theme
buffers, e the external decoding and template engine. Besides the theme,
the model returns the list of files opened on disk, in open order, so that
disk access is observable. -/
def Theme.new (emb : Embedded) (e : Engine) (fs : FS) (root : FPath)
    (name : String) : Except ThemeError (Theme × List FPath) :=
  let src_dir := root ++ [name]
  if !fsExists fs src_dir then
    if name ≠ ("simple" : String) then .error (.ThemeNotFound name)
    else do
      let t ← Theme.init_template e
        { root := root, name := name, renderer := [],
          favicon := emb.favicon, logo := emb.logo, main_css := emb.main_css,
          main_js := emb.main_js, base := emb.base, index := emb.index,
          post := emb.post, tag := emb.tag }
      return (t, [])
  else do
    let favicon ← fsOpen fs (src_dir ++ ["static", "favicon.png"])
    let logo ← fsOpen fs (src_dir ++ ["static", "logo.png"])
    let main_css ← fsOpen fs (src_dir ++ ["static", "main.css"])
    let main_js ← fsOpen fs (src_dir ++ ["static", "main.js"])
    let base ← fsOpen fs (src_dir ++ ["templates", "base.tpl"])
    let index ← fsOpen fs (src_dir ++ ["templates", "index.tpl"])
    let post ← fsOpen fs (src_dir ++ ["templates", "post.tpl"])
    let tag ← fsOpen fs (src_dir ++ ["templates", "tag.tpl"])
    let t ← Theme.init_template e
      { root := root, name := name, renderer := [],
        favicon := favicon, logo := logo, main_css := main_css,
        main_js := main_js, base := base, index := index,
        post := post, tag := tag }
    return (t,
      [ src_dir ++ ["static", "favicon.png"], src_dir ++ ["static", "logo.png"],
        src_dir ++ ["static", "main.css"], src_dir ++ ["static", "main.js"],
        src_dir ++ ["templates", "base.tpl"], src_dir ++ ["templates", "index.tpl"],
        src_dir ++ ["templates", "post.tpl"], src_dir ++ ["templates", "tag.tpl"] ])

/-- The strict non-empty prefixes of a path: the ancestor directories the
modelled write creates. -/
def properPrefixDirs : FPath → List FPath
  | [] => []
  | [_] => []
  | x :: xs => [x] :: (properPrefixDirs xs).map (fun q => x :: q)

/-- Modelled from the spec: utils::write_file (src/utils.rs is not among
the provided sources) writes the buffer at the path, creating the parent
directories, overwriting any file already at that path. -/
def write_file (fs : FS) (p : FPath) (buf : ByteBuf) : FS :=
  { dirs := properPrefixDirs p ++ fs.dirs, files := (p, buf) :: fs.files }

/-- Theme::init_dir (the spec's materialize): scaffold the theme's eight
files at root/name unless the destination already exists. Returns the new
file-system state and the writes performed, in order; the modelled write
always succeeds, so the source's Ok result is implicit. -/
def Theme.init_dir (t : Theme) (fs : FS) (name : String) :
    FS × List (FPath × ByteBuf) :=
  let dest_dir := t.root ++ [name]
  if fsExists fs dest_dir then (fs, [])
  else
    let w : List (FPath × ByteBuf) :=
      [ (dest_dir ++ ["static", "favicon.png"], t.favicon),
        (dest_dir ++ ["static", "logo.png"], t.logo),
        (dest_dir ++ ["static", "main.css"], t.main_css),
        (dest_dir ++ ["static", "main.js"], t.main_js),
        (dest_dir ++ ["templates", "base.tpl"], t.base),
        (dest_dir ++ ["templates", "index.tpl"], t.index),
        (dest_dir ++ ["templates", "post.tpl"], t.post),
        (dest_dir ++ ["templates", "tag.tpl"], t.tag) ]
    (w.foldl (fun acc pb => write_file acc pb.1 pb.2) fs, w)

/-- Theme::export_static: write the four static assets under the output
root, unconditionally. Returns the new file-system state and the writes
performed, in order. -/
def Theme.export_static (t : Theme) (fs : FS) (root : FPath) :
    FS × List (FPath × ByteBuf) :=
  let w : List (FPath × ByteBuf) :=
    [ (root ++ ["static", "favicon.png"], t.favicon),
      (root ++ ["static", "logo.png"], t.logo),
      (root ++ ["static", "main.css"], t.main_css),
      (root ++ ["static", "main.js"], t.main_js) ]
  (w.foldl (fun acc pb => write_file acc pb.1 pb.2) fs, w)

/-- The buffer decodes as UTF-8 and passes template parsing. -/
def templateOk (e : Engine) (buf : ByteBuf) : Bool :=
  match e.decodeUtf8 buf with
  | none => false
  | some s => e.parseTemplate s

/-- Modelled from the spec: the four embedded simple-theme templates are
valid UTF-8 and register successfully (the spec asserts the default-theme
load succeeds with all four templates parsed). -/
def acceptsEmbedded (e : Engine) (emb : Embedded) : Bool :=
  templateOk e emb.base && templateOk e emb.index &&
  templateOk e emb.post && templateOk e emb.tag

/-- A real file system never nests a file strictly below another file: no
file path is a strict prefix of another file path. -/
def filesWellNested (fs : FS) : Bool :=
  fs.files.all (fun pb => fs.files.all (fun qb =>
    !(pb.1.isPrefixOf qb.1) || pb.1 == qb.1))

/-! ### Concrete instances used by the closed theorems and witnesses -/

/-- Headers with every field empty or at its default. -/
def emptyHeaders : PostHeaders :=
  { created := [], hidden := false, tags := [], description := [], title := [] }

/-- A yaml stub accepting any head and yielding the empty headers. -/
def yamlEmpty : Str → Option PostHeaders := fun _ => some emptyHeaders

/-- Headers carrying a non-empty description and an underscored title. -/
def underscoreTitleHeaders : PostHeaders :=
  { created := [], hidden := false, tags := [], description := toStr ("d"),
    title := toStr ("a_b") }

/-- A yaml stub yielding the underscored-title headers. -/
def yamlUnderscoreTitle : Str → Option PostHeaders :=
  fun _ => some underscoreTitleHeaders

/-- A CRLF post file whose metadata head spans two lines. -/
def crlfTwoLineHead : Str := toStr ("created: c\r\ntitle: t\r\n\r\nbody")

/-- The my_post.md example file of the spec: no title key, one-word body. -/
def myPostContent : Str := toStr ("created: c\n\nbody")

/-- The post value that parsing my_post.md yields in the model. -/
def myPostParsed : Post :=
  { root := [], path := toStr ("my_post.md"),
    formatted_path := toStr ("/my_post.html"), title := toStr ("my post"),
    url := toStr ("/my_post.html"),
    headers := { created := [], hidden := false, tags := [],
                 description := toStr ("body..."), title := [] },
    content := toStr ("body") }

/-- An engine accepting every buffer, for concrete theme runs. -/
def engineAccept : Engine :=
  { decodeUtf8 := fun _ => some ("t"), parseTemplate := fun _ => true }

/-- Distinct one-byte embedded buffers, for concrete theme runs. -/
def embOne : Embedded :=
  { favicon := [0], logo := [1], main_css := [2], main_js := [3],
    base := [4], index := [5], post := [6], tag := [7] }

/-- The empty file system. -/
def fsEmpty : FS := { dirs := [], files := [] }

/-- The themes root used by the concrete theme runs. -/
def themesRoot : FPath := [("themes" : String)]

/-- The theme the embedded fallback yields from the one-byte buffers. -/
def simpleThemeLoaded : Theme :=
  { root := themesRoot, name := ("simple" : String),
    renderer := [("base.tpl" : String), ("index.tpl" : String),
                 ("post.tpl" : String), ("tag.tpl" : String)],
    favicon := [0], logo := [1], main_css := [2], main_js := [3],
    base := [4], index := [5], post := [6], tag := [7] }

/-- A file system in which the directory themes/simple already exists. -/
def fsWithSimpleDir : FS :=
  { dirs := [[("themes" : String), ("simple" : String)]], files := [] }

/-- A file system holding a plain (non-directory) file at themes/x. -/
def fsWithFileAtX : FS :=
  { dirs := [], files := [([("themes" : String), ("x" : String)], [9])] }

/-- The four fixed template names, in registration order. -/
def tplNames : List String :=
  [("base.tpl" : String), ("index.tpl" : String), ("post.tpl" : String),
   ("tag.tpl" : String)]

/-! ### Supporting lemmas -/

/-- Inversion of a successful Except bind. -/
theorem bindOk {g a b : Type} {x : Except g a} {f : a → Except g b} {r : b}
    (h : (x >>= f) = .ok r) : ∃ v, x = .ok v ∧ f v = .ok r := by
  cases x with
  | error e => exact Except.noConfusion h
  | ok v => exact ⟨v, rfl, h⟩

/-- A successful template registration appends exactly the one name. -/
theorem addRawTemplate_ok {e : Engine} {r r' : List String} {n : String}
    {b : ByteBuf} (h : addRawTemplate e r n b = .ok r') : r' = r ++ [n] := by
  unfold addRawTemplate at h
  cases hd : e.decodeUtf8 b with
  | none => rw [hd] at h; exact Except.noConfusion h
  | some s =>
    simp only [hd] at h
    by_cases hp : e.parseTemplate s
    · rw [if_pos hp] at h; injection h with h2; exact h2.symm
    · rw [if_neg hp] at h; exact Except.noConfusion h

/-- Registration succeeds on a buffer the engine accepts. -/
theorem addRawTemplate_of_templateOk {e : Engine} {b : ByteBuf}
    (h : templateOk e b = true) (r : List String) (n : String) :
    addRawTemplate e r n b = .ok (r ++ [n]) := by
  unfold templateOk at h
  unfold addRawTemplate
  cases hd : e.decodeUtf8 b with
  | none => rw [hd] at h; exact Bool.noConfusion h
  | some s => simp only [hd] at h; simp [h]

/-- A successful init_template appends exactly the four fixed names to the
renderer and changes nothing else. -/
theorem init_template_ok {e : Engine} {t t' : Theme}
    (h : Theme.init_template e t = .ok t') :
    t' = { t with renderer := t.renderer ++ tplNames } := by
  simp only [Theme.init_template] at h
  obtain ⟨r1, h1, h⟩ := bindOk h
  obtain ⟨r2, h2, h⟩ := bindOk h
  obtain ⟨r3, h3, h⟩ := bindOk h
  obtain ⟨r4, h4, h⟩ := bindOk h
  injection h with h5
  rw [← h5, addRawTemplate_ok h4, addRawTemplate_ok h3, addRawTemplate_ok h2,
    addRawTemplate_ok h1]
  simp [tplNames]

/-- init_template succeeds when the engine accepts all four buffers. -/
theorem init_template_of_ok (e : Engine) (t : Theme)
    (hb : templateOk e t.base = true) (hi : templateOk e t.index = true)
    (hp : templateOk e t.post = true) (ht : templateOk e t.tag = true) :
    Theme.init_template e t = .ok { t with renderer := t.renderer ++ tplNames } := by
  simp only [Theme.init_template, addRawTemplate_of_templateOk hb,
    addRawTemplate_of_templateOk hi, addRawTemplate_of_templateOk hp,
    addRawTemplate_of_templateOk ht, bind, Except.bind, tplNames]
  simp [pure, Except.pure]

/-- Directory lookup succeeds on a member. -/
theorem dirExists_of_mem {l : List FPath} {q : FPath} (h : q ∈ l) :
    dirExists l q = true := by
  induction l with
  | nil => cases h
  | cons d rest ih =>
    by_cases hq : q = d
    · simp [dirExists, hq]
    · simp only [dirExists, if_neg hq]
      exact ih ((List.mem_cons.mp h).resolve_left hq)

/-- Directory lookup is preserved by prepending more directories. -/
theorem dirExists_append_right {l2 : List FPath} {q : FPath} (l1 : List FPath)
    (h : dirExists l2 q = true) : dirExists (l1 ++ l2) q = true := by
  induction l1 with
  | nil => exact h
  | cons d rest ih =>
    by_cases hq : q = d
    · simp [dirExists, hq]
    · simp only [List.cons_append, dirExists, if_neg hq]
      exact ih

/-- A path that exists still exists after any write. -/
theorem fsExists_write_file {fs : FS} {q : FPath} (p : FPath) (buf : ByteBuf)
    (h : fsExists fs q = true) : fsExists (write_file fs p buf) q = true := by
  unfold fsExists at h ⊢
  simp only [Bool.or_eq_true] at h ⊢
  rcases h with hd | hf
  · exact Or.inl (dirExists_append_right _ hd)
  · refine Or.inr ?_
    simp only [fsFile, write_file, findFile]
    by_cases hq : q = p
    · simp [hq]
    · simp only [if_neg hq]
      exact hf

/-- A non-empty path is among the ancestor directories of its two-level
extension. -/
theorem mem_properPrefixDirs_append (l : FPath) (a b : String) (h : l ≠ []) :
    l ∈ properPrefixDirs (l ++ [a, b]) := by
  induction l with
  | nil => exact absurd rfl h
  | cons x xs ih =>
    cases xs with
    | nil => simp [properPrefixDirs]
    | cons y ys =>
      simp only [List.cons_append, properPrefixDirs]
      exact List.mem_cons_of_mem _ (List.mem_map_of_mem _ (ih (by simp)))

/-- Scaffolding against an existing destination changes nothing and writes
nothing. -/
theorem init_dir_noop {t : Theme} {fs : FS} {name : String}
    (h : fsExists fs (t.root ++ [name]) = true) :
    Theme.init_dir t fs name = (fs, []) := by
  simp [Theme.init_dir, h]

/-- After any init_dir run the destination directory exists. -/
theorem init_dir_dest_exists (t : Theme) (fs : FS) (name : String) :
    fsExists (Theme.init_dir t fs name).1 (t.root ++ [name]) = true := by
  by_cases hex : fsExists fs (t.root ++ [name]) = true
  · rw [init_dir_noop hex]
    exact hex
  · have hex2 : fsExists fs (t.root ++ [name]) = false := by
      cases hx : fsExists fs (t.root ++ [name])
      · rfl
      · exact absurd hx hex
    simp only [Theme.init_dir, hex2, Bool.false_eq_true, if_false, List.foldl]
    apply fsExists_write_file
    apply fsExists_write_file
    apply fsExists_write_file
    apply fsExists_write_file
    apply fsExists_write_file
    apply fsExists_write_file
    apply fsExists_write_file
    unfold fsExists
    simp only [Bool.or_eq_true]
    refine Or.inl ?_
    simp only [write_file]
    apply dirExists_of_mem
    exact List.mem_append_left _ (mem_properPrefixDirs_append _ _ _ (by simp))

/-- A successful file lookup exhibits a matching file entry. -/
theorem findFile_isSome_mem {l : List (FPath × ByteBuf)} {p : FPath}
    (h : (findFile l p).isSome = true) : ∃ b, (p, b) ∈ l := by
  induction l with
  | nil => simp [findFile] at h
  | cons hd tl ih =>
    obtain ⟨q, b⟩ := hd
    by_cases hpq : p = q
    · exact ⟨b, by rw [hpq]; exact List.mem_cons_self _ _⟩
    · simp only [findFile, if_neg hpq] at h
      obtain ⟨b2, hb⟩ := ih h
      exact ⟨b2, List.mem_cons_of_mem _ hb⟩

/-! ### C1 -/

/-- C1: recorded as a code bug. The claim (like the spec and the source's
own doc comment on Post, which says head and body are separated by the
first blank line) puts the split of a CRLF file at the first double CRLF;
Post::split_file instead selects a single CRLF as separator and splits at
the first line break. At this two-line-header input the double-CRLF
separator occurs after the second header line, yet the code takes only the
first header line as the head and leaves the second header line inside the
body (and hence inside the derived description and rendered content). -/
theorem c1_crlf_file_splits_at_first_single_crlf :
    detectSep crlfTwoLineHead = sepCRLF ∧
    splitFirst (sepCRLF ++ sepCRLF) crlfTwoLineHead
      = some (toStr ("created: c\r\ntitle: t"), toStr ("body")) ∧
    splitFirst sepCRLF crlfTwoLineHead
      = some (toStr ("created: c"), toStr ("title: t\r\n\r\nbody")) ∧
    split_file yamlEmpty id crlfTwoLineHead
      = .ok ({ emptyHeaders with description := toStr ("title: t body...") },
             toStr ("title: t\r\n\r\nbody")) :=
  ⟨by decide, by decide, by decide, rfl⟩

/-! ### C2 -/

/-- C2 fails as stated: Post::new applies the underscore-to-space
substitution to the resolved title in both branches, so the non-empty
header title a_b yields the post title a b, not the header title itself. -/
theorem c2_counterexample :
    Except.map Post.title
        (Post.new yamlUnderscoreTitle id [] (toStr ("p.md")) (toStr ("h\n\nb")))
      = .ok (toStr ("a b")) ∧
    underscoreTitleHeaders.title = toStr ("a_b") ∧
    toStr ("a b") ≠ toStr ("a_b") :=
  ⟨rfl, rfl, by decide⟩

/-- C2 amended: for every successfully parsed post, the resolved title is
the header title with every underscore substituted by a space when the
header title is non-empty, and otherwise the file's stem with every
underscore substituted by a space. -/
theorem c2_title_resolution (yaml : Str → Option PostHeaders) (md : Str → Str)
    (root path content : Str) (p : Post)
    (h : Post.new yaml md root path content = .ok p) :
    (p.headers.title.isEmpty = false → p.title = replaceUnderscore p.headers.title) ∧
    (p.headers.title.isEmpty = true →
      ∃ stem, fileStemOf path = some stem ∧ p.title = replaceUnderscore stem) := by
  cases hsf : split_file yaml md content with
  | error e => rw [Post.new, hsf] at h; exact Except.noConfusion h
  | ok pr =>
    obtain ⟨headers, content2⟩ := pr
    simp only [Post.new, hsf] at h
    split at h
    · exact absurd h (by simp)
    · rename_i t0 heq
      injection h with h2
      subst h2
      by_cases ht : headers.title.isEmpty
      · rw [if_pos ht] at heq
        refine ⟨by simp [ht], fun _ => ⟨t0, heq, by simp⟩⟩
      · rw [if_neg ht] at heq
        injection heq with heq2
        subst heq2
        refine ⟨fun _ => by simp, fun h1 => absurd h1 ht⟩

/-- Witness for c2_title_resolution: the spec's own example, a my_post.md
file with no title key, resolves the title to the stem with underscores
replaced, giving my post. -/
theorem c2_title_resolution_witness :
    myPostParsed.headers.title.isEmpty = true ∧
    myPostParsed.title = replaceUnderscore (toStr ("my_post")) ∧
    replaceUnderscore (toStr ("my_post")) = toStr ("my post") := by
  refine ⟨by decide, ?_, by decide⟩
  obtain ⟨stem, hstem, htitle⟩ :=
    (c2_title_resolution yamlEmpty id [] (toStr ("my_post.md")) myPostContent
      myPostParsed rfl).2 (by decide)
  have hcomp : fileStemOf (toStr ("my_post.md")) = some (toStr ("my_post")) := by decide
  rw [hstem] at hcomp
  injection hcomp with h3
  subst h3
  exact htitle

/-! ### C3 -/

/-- C3: for every successfully parsed post whose header description is
empty, the resulting description is exactly the spec's derived one: the
first blank-line-delimited chunk of the trimmed body, split into
whitespace tokens, truncated to the first 100, rejoined with single
spaces, with the ellipsis appended exactly when that string is
non-empty. -/
theorem c3_auto_description (yaml : Str → Option PostHeaders) (md : Str → Str)
    (content h0 b0 : Str) (hdr : PostHeaders)
    (hsplit : splitFirst (detectSep content) content = some (h0, b0))
    (hhead : (trim h0).isEmpty = false) (hbody : (trim b0).isEmpty = false)
    (hyaml : yaml (trim h0) = some hdr)
    (hdesc : hdr.description.isEmpty = true) :
    split_file yaml md content =
      .ok ({ hdr with description := specAutoDescription (trim b0) }, md (trim b0)) := by
  have hde : hdr.description = [] := List.isEmpty_iff.mp hdesc
  simp only [split_file, hsplit, hhead, hbody, hyaml, hdesc, Bool.false_eq_true,
    if_false, if_true, autoFillDescription, specAutoDescription]
  rw [hde]
  simp only [List.nil_append]
  by_cases hd : (List.intercalate [' ']
      ((splitWhitespace (firstChunkLF2 (trim b0))).take 100)).isEmpty
  · rw [if_pos hd]
    simp [List.isEmpty_iff.mp hd]
  · rw [if_neg hd]
    simp [hd]

/-- Witness for c3_auto_description: the my_post.md file has no
description key, and parsing derives body followed by the ellipsis. -/
theorem c3_auto_description_witness :
    split_file yamlEmpty id myPostContent
      = .ok ({ emptyHeaders with description := specAutoDescription (trim (toStr ("body"))) },
             id (trim (toStr ("body")))) ∧
    specAutoDescription (trim (toStr ("body"))) = toStr ("body...") :=
  ⟨c3_auto_description yamlEmpty id myPostContent (toStr ("created: c"))
      (toStr ("body")) emptyHeaders (by decide) (by decide) (by decide) rfl (by decide),
   by decide⟩

/-! ### C4 -/

/-- C4 fails as stated: at a file whose head and body both trim to
nothing, the trimmed body is empty yet the error is PostNoHead (the spec's
EmptyHead), not PostNoBody (EmptyBody): the head check runs first. -/
theorem c4_counterexample :
    splitFirst (detectSep (toStr (" \n\n "))) (toStr (" \n\n "))
      = some (toStr (" "), toStr (" ")) ∧
    trim (toStr (" ")) = [] ∧
    split_file yamlEmpty id (toStr (" \n\n ")) = .error .PostNoHead ∧
    PostError.PostNoHead ≠ PostError.PostNoBody :=
  ⟨by decide, by decide, rfl, by decide⟩

/-- C4 amended: parse fails with PostOnlyOnePart (MissingHeadBody) exactly
when splitting on the detected separator yields fewer than two parts;
otherwise it fails with PostNoHead (EmptyHead) exactly when the trimmed
head is empty, and fails with PostNoBody (EmptyBody) exactly when the
trimmed head is non-empty and the trimmed body is empty. -/
theorem c4_error_conditions (yaml : Str → Option PostHeaders) (md : Str → Str)
    (content : Str) :
    (split_file yaml md content = .error .PostOnlyOnePart ↔
      splitFirst (detectSep content) content = none) ∧
    (∀ h0 b0, splitFirst (detectSep content) content = some (h0, b0) →
      ((split_file yaml md content = .error .PostNoHead ↔ trim h0 = []) ∧
       (split_file yaml md content = .error .PostNoBody ↔
         (trim h0 ≠ [] ∧ trim b0 = [])))) := by
  cases hs : splitFirst (detectSep content) content with
  | none =>
    exact ⟨by simp [split_file, hs], fun h0 b0 heq => Option.noConfusion heq⟩
  | some ab =>
    obtain ⟨a, b⟩ := ab
    have hsf : split_file yaml md content =
        if trim a = [] then .error .PostNoHead
        else if trim b = [] then .error .PostNoBody
        else match yaml (trim a) with
          | none => .error .PostHeadPaser
          | some headers => .ok (autoFillDescription headers (trim b), md (trim b)) := by
      simp only [split_file, hs, List.isEmpty_iff]
    constructor
    · rw [hsf]
      by_cases hh : trim a = [] <;> by_cases hb : trim b = [] <;> simp [hh, hb] <;>
        cases hy : yaml (trim a) <;> simp [hy]
    · intro h0 b0 heq
      obtain ⟨e1, e2⟩ : a = h0 ∧ b = b0 := by
        injection heq with h'
        exact ⟨congrArg Prod.fst h', congrArg Prod.snd h'⟩
      rw [← e1, ← e2, hsf]
      by_cases hh : trim a = [] <;> by_cases hb : trim b = [] <;> simp [hh, hb] <;>
        cases hy : yaml (trim a) <;> simp [hy]

/-- Witness for c4_error_conditions: a file whose body is only whitespace
fails with PostNoBody. -/
theorem c4_error_conditions_witness :
    split_file yamlEmpty id (toStr ("a\n\n ")) = .error .PostNoBody :=
  ((c4_error_conditions yamlEmpty id (toStr ("a\n\n "))).2 (toStr ("a")) (toStr (" "))
      (by decide)).2.mpr (by decide)

/-! ### C5 -/

/-- C5: when nothing exists on disk at themes_root/simple, loading the
reserved default theme succeeds from the embedded buffers alone — no file
is opened (the opened-files log is empty), the theme's buffers are the
embedded ones, and the renderer holds exactly the four fixed template
names. The hypothesis that the engine accepts the four embedded templates
is modelled from the spec, which asserts the default load succeeds. -/
theorem c5_default_theme_loads_embedded (emb : Embedded) (e : Engine) (fs : FS)
    (root : FPath)
    (hex : fsExists fs (root ++ [("simple" : String)]) = false)
    (hacc : acceptsEmbedded e emb = true) :
    Theme.new emb e fs root ("simple")
      = .ok ({ root := root, name := ("simple" : String), renderer := tplNames,
               favicon := emb.favicon, logo := emb.logo, main_css := emb.main_css,
               main_js := emb.main_js, base := emb.base, index := emb.index,
               post := emb.post, tag := emb.tag }, []) := by
  simp only [acceptsEmbedded, Bool.and_eq_true] at hacc
  obtain ⟨⟨⟨hb, hi⟩, hp⟩, ht⟩ := hacc
  have hit := init_template_of_ok e
    { root := root, name := ("simple" : String), renderer := [],
      favicon := emb.favicon, logo := emb.logo, main_css := emb.main_css,
      main_js := emb.main_js, base := emb.base, index := emb.index,
      post := emb.post, tag := emb.tag } hb hi hp ht
  simp [Theme.new, hex, hit, bind, Except.bind, pure, Except.pure]

/-- Witness for c5: a concrete run over the empty file system and
one-byte embedded buffers loads the default theme without opening any
file. -/
theorem c5_default_theme_loads_embedded_witness :
    Theme.new embOne engineAccept fsEmpty themesRoot ("simple")
      = .ok (simpleThemeLoaded, []) :=
  c5_default_theme_loads_embedded embOne engineAccept fsEmpty themesRoot
    (by decide) (by decide)

/-! ### C6 -/

/-- C6: for every name other than the reserved simple, when nothing exists
on disk at themes_root/name the load fails with exactly ThemeNotFound for
that name — no other outcome is possible there. -/
theorem c6_theme_not_found (emb : Embedded) (e : Engine) (fs : FS)
    (root : FPath) (name : String)
    (hex : fsExists fs (root ++ [name]) = false)
    (hn : name ≠ ("simple" : String)) :
    Theme.new emb e fs root name = .error (.ThemeNotFound name) := by
  simp [Theme.new, hex, hn]

/-- Witness for c6 at the unknown theme name other. -/
theorem c6_theme_not_found_witness :
    Theme.new embOne engineAccept fsEmpty themesRoot ("other")
      = .error (.ThemeNotFound ("other")) :=
  c6_theme_not_found embOne engineAccept fsEmpty themesRoot ("other")
    (by decide) (by decide)

/-! ### C7 -/

/-- C7: materialize (Theme::init_dir) is idempotent. When the destination
directory themes_root/name already exists the operation succeeds with no
write at all and leaves the file system untouched; and a second run over
the state the first run produced performs no write and leaves that state
unchanged, whatever the first run did. -/
theorem c7_materialize_idempotent (t : Theme) (fs : FS) (name : String) :
    (fsExists fs (t.root ++ [name]) = true → Theme.init_dir t fs name = (fs, [])) ∧
    Theme.init_dir t (Theme.init_dir t fs name).1 name
      = ((Theme.init_dir t fs name).1, []) :=
  ⟨fun h => init_dir_noop h, init_dir_noop (init_dir_dest_exists t fs name)⟩

/-- Witness for c7: against an existing themes/simple directory,
materialize returns success and writes nothing. -/
theorem c7_materialize_idempotent_witness :
    Theme.init_dir simpleThemeLoaded fsWithSimpleDir ("simple")
      = (fsWithSimpleDir, []) :=
  (c7_materialize_idempotent simpleThemeLoaded fsWithSimpleDir ("simple")).1
    (by decide)

/-! ### C8 -/

/-- C8: export_static writes exactly the four static-asset buffers under
output_root/static — its write log is precisely those four paths with the
current in-memory buffers, so no template and no other path is written —
and the resulting file system holds the current buffers at those four
paths (unconditional overwrite) while every other path's file content is
unchanged. Run from any starting state, including the output of a previous
run, the last write wins. -/
theorem c8_export_static_exact (t : Theme) (fs : FS) (root : FPath) :
    (Theme.export_static t fs root).2 =
      [ (root ++ [("static" : String), ("favicon.png" : String)], t.favicon),
        (root ++ [("static" : String), ("logo.png" : String)], t.logo),
        (root ++ [("static" : String), ("main.css" : String)], t.main_css),
        (root ++ [("static" : String), ("main.js" : String)], t.main_js) ] ∧
    (∀ p, fsFile (Theme.export_static t fs root).1 p =
      if p = root ++ [("static" : String), ("main.js" : String)] then some t.main_js
      else if p = root ++ [("static" : String), ("main.css" : String)] then some t.main_css
      else if p = root ++ [("static" : String), ("logo.png" : String)] then some t.logo
      else if p = root ++ [("static" : String), ("favicon.png" : String)] then some t.favicon
      else fsFile fs p) := by
  constructor
  · rfl
  · intro p
    have hw : ∀ (g : FS) (q : FPath) (buf : ByteBuf),
        fsFile (write_file g q buf) p = if p = q then some buf else fsFile g p := by
      intro g q buf
      simp [fsFile, write_file, findFile]
    simp only [Theme.export_static, List.foldl]
    rw [hw, hw, hw, hw]

/-! ### C9 -/

/-- C9: every theme value a successful load returns has exactly the four
fixed template names registered in its renderer, whichever load path was
taken — a partially-initialized theme is never observable, since any
decoding or registration failure makes the whole load fail. -/
theorem c9_loaded_theme_has_all_templates (emb : Embedded) (e : Engine)
    (fs : FS) (root : FPath) (name : String) (t : Theme) (opened : List FPath)
    (h : Theme.new emb e fs root name = .ok (t, opened)) :
    t.renderer = tplNames := by
  simp only [Theme.new] at h
  split at h
  · split at h
    · exact Except.noConfusion h
    · obtain ⟨t1, ht1, h⟩ := bindOk h
      have e1 : t = t1 := by
        injection h with h2
        exact (congrArg Prod.fst h2).symm
      rw [e1, init_template_ok ht1]
      simp
  · obtain ⟨v1, h1, h⟩ := bindOk h
    obtain ⟨v2, h2, h⟩ := bindOk h
    obtain ⟨v3, h3, h⟩ := bindOk h
    obtain ⟨v4, h4, h⟩ := bindOk h
    obtain ⟨v5, h5, h⟩ := bindOk h
    obtain ⟨v6, h6, h⟩ := bindOk h
    obtain ⟨v7, h7, h⟩ := bindOk h
    obtain ⟨v8, h8, h⟩ := bindOk h
    obtain ⟨t1, ht1, h⟩ := bindOk h
    have e1 : t = t1 := by
      injection h with h2
      exact (congrArg Prod.fst h2).symm
    rw [e1, init_template_ok ht1]
    simp

/-- Witness for c9: the concretely loaded default theme carries the four
template names. -/
theorem c9_loaded_theme_has_all_templates_witness :
    simpleThemeLoaded.renderer = tplNames :=
  c9_loaded_theme_has_all_templates embOne engineAccept fsEmpty themesRoot
    ("simple") simpleThemeLoaded [] rfl

/-! ### C10 -/

/-- C10: Theme::new only tests that themes_root/name exists, not that it
is a directory. In any well-nested file system holding a plain file at
themes_root/name — the reserved name included — the load takes the
on-disk path and fails with Io at the first fixed sub-path it opens,
never falling back to the embedded default and never returning
ThemeNotFound. -/
theorem c10_file_at_theme_path_gives_io (emb : Embedded) (e : Engine) (fs : FS)
    (root : FPath) (name : String)
    (hwn : filesWellNested fs = true)
    (hfile : (fsFile fs (root ++ [name])).isSome = true) :
    Theme.new emb e fs root name = .error .Io := by
  have hex : fsExists fs (root ++ [name]) = true := by
    unfold fsExists
    simp only [Bool.or_eq_true]
    exact Or.inr hfile
  have hfav : fsFile fs
      (root ++ [name, ("static" : String), ("favicon.png" : String)]) = none := by
    cases hf : fsFile fs (root ++ [name, ("static" : String), ("favicon.png" : String)]) with
    | none => rfl
    | some buf =>
      exfalso
      obtain ⟨b1, hb1⟩ := findFile_isSome_mem (l := fs.files) (p := root ++ [name]) hfile
      have hf2 : (findFile fs.files
          (root ++ [name, ("static" : String), ("favicon.png" : String)])).isSome = true := by
        unfold fsFile at hf
        rw [hf]
        rfl
      obtain ⟨b2, hb2⟩ := findFile_isSome_mem hf2
      simp only [filesWellNested, List.all_eq_true] at hwn
      have hww := hwn _ hb1 _ hb2
      simp only [Bool.or_eq_true, Bool.not_eq_true', beq_iff_eq] at hww
      have htrue : List.isPrefixOf (root ++ [name])
          (root ++ [name, ("static" : String), ("favicon.png" : String)]) = true := by
        rw [List.isPrefixOf_iff_prefix]
        exact ⟨[("static" : String), ("favicon.png" : String)], by simp⟩
      rcases hww with hnp | heq
      · rw [htrue] at hnp
        exact Bool.noConfusion hnp
      · have hlen := congrArg List.length heq
        simp [List.length_append] at hlen
  rw [Theme.new]
  simp only [hex, Bool.not_true, Bool.false_eq_true, if_false]
  simp [fsOpen, hfav, bind, Except.bind]

/-- Witness for c10: a plain file at themes/x makes loading the theme x
fail with Io. -/
theorem c10_file_at_theme_path_gives_io_witness :
    Theme.new embOne engineAccept fsWithFileAtX themesRoot ("x") = .error .Io :=
  c10_file_at_theme_path_gives_io embOne engineAccept fsWithFileAtX themesRoot
    ("x") (by decide) (by decide)

end Mdblog
